import Mathlib

/-! # wget3: rate-limit labels and the (optionally throttled) download copy

A shallow embedding of `main.go`:

* `parseRateLimit`           (main.go lines 15-31)
* `downloadFile`             (main.go lines 33-63)
* `rateLimitedReader.Read`   (main.go lines 70-77)

The collaborators that `main.go` only calls (`http.Get`, `os.Create`, `io.Copy`,
`rate.Limiter`) are modelled next to it: the response body is a script of read
results, the file is a byte list with a number of bytes it still accepts, the copy
loop is the loop of `io.Copy`, and the limiter is a token bucket read against an
explicit clock.
-/

namespace Wget

/-! ## Values -/

/-- One byte of payload. The program never inspects payload bytes. -/
abbrev Byte := Nat

/-- Go `error` values that the program or its collaborators tell apart. -/
inductive GoError where
  /-- The sentinel `io.EOF`. -/
  | eof
  /-- The sentinel `io.ErrShortWrite`. -/
  | shortWrite
  /-- The error of `io.Copy` for a writer that reports more bytes than it was given. -/
  | invalidWrite
  /-- Any other error, with its message. -/
  | other (msg : String)
  deriving DecidableEq, Repr

/-! ## `parseRateLimit` (main.go 15-31) -/

/-- The map literal `validLimits` of lines 20-24, as an association list. -/
def validLimits : List (String × Int) :=
  [("300k", 300 * 1024), ("700k", 700 * 1024), ("2M", 2 * 1024 * 1024)]

/-- The message of the error of line 28. -/
def rateLimitMessage : String :=
  "-rate-limit must be either '300k' or '700k' or '2M'"

/-- Embedding of `parseRateLimit`: the pair `(limit, err)` that the Go function returns.
Go's `int` is read as an integer; the values at hand are far from its bounds. -/
def parseRateLimit (limitStr : String) : Int × Option GoError :=
  if limitStr = "" then
    (0, none)
  else
    match validLimits.lookup limitStr with
    | none => (0, some (GoError.other rateLimitMessage))
    | some limit => (limit, none)

/-- The four labels that `parseRateLimit` accepts. -/
def acceptedLabels : List String := ["", "300k", "700k", "2M"]

/-! ## The response body -/

/-- What one call of `Read` on the response body returns: the bytes it put in the
buffer (`n` is `data.length`), the error value that came with them, and for how many
clock ticks the call blocked. -/
structure ReadResult where
  data : List Byte
  err : Option GoError
  delay : Nat
  deriving DecidableEq, Repr

/-- The value `(0, io.EOF)` that a body returns once its script is used up. -/
def endOfBody : ReadResult := ⟨[], some GoError.eof, 0⟩

/-! ## The destination file -/

/-- An open file: the bytes it holds, and how many more bytes it accepts before a write
fails (`none`: no bound). -/
structure File where
  data : List Byte
  room : Option Nat
  deriving DecidableEq, Repr

/-- The error of a write that the file cannot take in full. -/
def noSpace : GoError := GoError.other "no space left on device"

/-- Model of `(*os.File).Write(p)`: the pair `(nw, ew)` and the file afterwards. A write
is taken in full, or up to the room that is left, then with an error. -/
def File.Write (f : File) (p : List Byte) : (Nat × Option GoError) × File :=
  match f.room with
  | none => ((p.length, none), { f with data := f.data ++ p })
  | some k =>
    if p.length ≤ k then
      ((p.length, none), { data := f.data ++ p, room := some (k - p.length) })
    else
      ((k, some noSpace), { data := f.data ++ p.take k, room := some 0 })

/-! ## The token bucket

Clock readings are integers; one tick is `1 / limit` second, the time in which the
bucket gains one token, so `limit` ticks make one second. -/

/-- Model of `rate.Limiter`: refill rate, capacity, the tokens held at the reading
`last`, and two counters that only record what `WaitN` did. -/
structure Limiter where
  limit : Int
  burst : Int
  tokens : Int
  last : Int
  /-- Tokens granted by `WaitN` since the limiter was made. -/
  granted : Int
  /-- Calls of `WaitN` that returned an error. -/
  refused : Nat
  deriving DecidableEq, Repr

/-- Model of `rate.NewLimiter(r, b)` at the clock reading `now`: the bucket starts full. -/
def NewLimiter (r : Int) (b : Int) (now : Int) : Limiter :=
  { limit := r, burst := b, tokens := b, last := now, granted := 0, refused := 0 }

/-- The error of `WaitN` for a request of `n` tokens above the capacity `burst`, with the
text of `fmt.Errorf("rate: Wait(n=%d) exceeds limiter's burst %d", n, burst)`. -/
def exceedsBurst (n burst : Int) : GoError :=
  GoError.other ("rate: Wait(n=" ++ toString n ++ ") exceeds limiter's burst " ++ toString burst)

/-- Model of `(*rate.Limiter).WaitN(context.Background(), n)` called at the reading
`now`: the error value, the limiter afterwards, and the reading at which the call
returns. A request above the capacity is refused at once. Otherwise the bucket is
refilled for the time since `last` (never above `burst`), `n` tokens are taken, and the
call blocks for as many ticks as tokens are missing. The background context is never
cancelled, so the wait itself cannot fail. -/
def Limiter.WaitN (lim : Limiter) (now : Int) (n : Int) : Option GoError × Limiter × Int :=
  if n > lim.burst then
    (some (exceedsBurst n lim.burst), { lim with refused := lim.refused + 1 }, now)
  else
    let last := if now < lim.last then now else lim.last
    let tokens := min lim.burst (lim.tokens + (now - last)) - n
    let wait := if tokens < 0 then -tokens else 0
    (none, { lim with tokens := tokens, last := now, granted := lim.granted + n }, now + wait)

/-! ## `rateLimitedReader` (main.go 65-77) -/

/-- The struct `rateLimitedReader`. Its field `reader` is the response body; what the
body returns to the call on line 71 is passed to `Read` as `inner`. -/
structure rateLimitedReader where
  limiter : Limiter
  deriving DecidableEq, Repr

/-- Embedding of `rateLimitedReader.Read`, called at the reading `now`, where `inner` is
what `r.reader.Read(p)` returned on line 71: the pair `(n, err)` returned (as a
`ReadResult` with no delay of its own), the reader afterwards, and the reading at which
the call returns. Lines 72-74 return at once when `err != nil`; line 75 waits for `n`
tokens and drops the result of `WaitN`; line 76 returns `(n, nil)`. -/
def rateLimitedReader.Read (r : rateLimitedReader) (inner : ReadResult) (now : Int) :
    ReadResult × rateLimitedReader × Int :=
  match inner.err with
  | some e => (⟨inner.data, some e, 0⟩, r, now)
  | none =>
    let w := r.limiter.WaitN now inner.data.length
    (⟨inner.data, none, 0⟩, { r with limiter := w.2.1 }, w.2.2)

/-! ## `io.Copy` -/

/-- The state of the copy loop. `src` is `some r` when the loop reads through the
`rateLimitedReader` `r`, and `none` when it reads the body itself. -/
structure CopyState where
  dst : File
  src : Option rateLimitedReader
  clock : Int
  /-- Calls of `Read` issued on the response body so far. -/
  reads : Nat
  /-- The part of the body's script that no `Read` has consumed. -/
  unread : List ReadResult
  /-- The error with which the loop ended. -/
  err : Option GoError
  deriving DecidableEq, Repr

/-- `src.Read(buf)` of the loop, where `inner` is what the body returns to this call:
the body's own result when the body is read directly, the result of
`rateLimitedReader.Read` otherwise. The clock first advances by the time the body took. -/
def CopyState.read (st : CopyState) (inner : ReadResult) : ReadResult × CopyState :=
  let now := st.clock + inner.delay
  match st.src with
  | none => (inner, { st with clock := now, reads := st.reads + 1 })
  | some r =>
    let out := r.Read inner now
    (out.1, { st with src := some out.2.1, clock := out.2.2, reads := st.reads + 1 })

/-- One pass through the body of the `for` loop of `io.Copy`, given what the body
returns to its `Read`. The flag tells whether the loop goes on (`true`) or has hit a
`break` (`false`). Bytes are written before the read error is looked at. -/
def copyIter (st : CopyState) (inner : ReadResult) : CopyState × Bool :=
  let rd := st.read inner
  let res := rd.1
  let st1 := rd.2
  let nr := res.data.length
  if 0 < nr then
    let w := st1.dst.Write res.data
    let nw := w.1.1
    let st2 := { st1 with dst := w.2 }
    let ew := if nr < nw then (if w.1.2 = none then some GoError.invalidWrite else w.1.2)
              else w.1.2
    let nw := if nr < nw then 0 else nw
    match ew with
    | some e => ({ st2 with err := some e }, false)
    | none =>
      if nr ≠ nw then ({ st2 with err := some GoError.shortWrite }, false)
      else
        match res.err with
        | some e => ({ st2 with err := if e = GoError.eof then none else some e }, false)
        | none => (st2, true)
  else
    match res.err with
    | some e => ({ st1 with err := if e = GoError.eof then none else some e }, false)
    | none => (st1, true)

/-- The `for` loop of `io.Copy` over the script of the body: each pass consumes the next
entry of the script; when the script is used up the body returns `(0, io.EOF)` and the
loop ends. -/
def copyBuffer : List ReadResult → CopyState → CopyState
  | [], st => (copyIter st endOfBody).1
  | r :: rest, st =>
    let it := copyIter { st with unread := rest } r
    if it.2 then copyBuffer rest it.1 else it.1

/-- Model of `io.Copy(dst, src)` started at the reading `now`, where the source is the
body with script `body`, read directly (`src = none`) or through a `rateLimitedReader`. -/
def ioCopy (dst : File) (src : Option rateLimitedReader) (body : List ReadResult)
    (now : Int) : CopyState :=
  copyBuffer body { dst := dst, src := src, clock := now, reads := 0, unread := body, err := none }

/-! ## `downloadFile` (main.go 33-63) -/

/-- The part of `*http.Response` that `downloadFile` uses. `Body` is the script of the
results of the successive `Read` calls on `resp.Body`. -/
structure Response where
  StatusCode : Int
  Status : String
  Body : List ReadResult

/-- The constant `http.StatusOK`. -/
def StatusOK : Int := 200

/-- The world `downloadFile` runs in: what `http.Get` and `os.Create` answer. `os.Create`
creates or truncates the file, which is then empty, and answers with the number of bytes
the file will accept (`none`: no bound), or fails with an error. -/
structure World where
  httpGet : String → Except GoError Response
  osCreate : String → Except GoError (Option Nat)

/-- The four errors `downloadFile` returns, one per `fmt.Errorf` of the function. -/
inductive DownloadError where
  /-- Line 36: "failed to create request: %v". -/
  | requestFailed (cause : GoError)
  /-- Line 41: "HTTP request failed: %s". -/
  | httpStatus (status : String)
  /-- Line 46: "failed to create file: %v". -/
  | createFailed (cause : GoError)
  /-- Line 58: "download failed: %v". -/
  | copyFailed (cause : GoError)
  deriving DecidableEq, Repr

/-- What a call of `downloadFile` leaves behind. -/
structure Outcome where
  /-- The returned error (`none` for `nil`). -/
  err : Option DownloadError
  /-- The file opened by `os.Create`, as it is when the function returns; `none` when
  no file was created or truncated. -/
  file : Option File
  /-- The limiter made on line 52, as it is when the function returns; `none` when
  none was made. -/
  limiter : Option Limiter
  /-- Calls of `Read` issued on the response body. -/
  reads : Nat
  /-- The part of the body's script that was never read. -/
  unread : List ReadResult
  /-- Clock ticks between the start and the end of the copy. -/
  elapsed : Int
  /-- Lines printed on standard output. -/
  stdout : List String
  deriving DecidableEq, Repr

/-- Embedding of `downloadFile`. The copy starts at the clock reading 0, at which the
limiter, when there is one, is made. The two deferred `Close` calls change nothing that
an `Outcome` records and are left out. -/
def downloadFile (w : World) (url : String) (outputPath : String) (limit : Int) : Outcome :=
  match w.httpGet url with
  | Except.error e =>
    { err := some (DownloadError.requestFailed e), file := none, limiter := none,
      reads := 0, unread := [], elapsed := 0, stdout := [] }
  | Except.ok resp =>
    if resp.StatusCode ≠ StatusOK then
      { err := some (DownloadError.httpStatus resp.Status), file := none, limiter := none,
        reads := 0, unread := resp.Body, elapsed := 0, stdout := [] }
    else
      match w.osCreate outputPath with
      | Except.error e =>
        { err := some (DownloadError.createFailed e), file := none, limiter := none,
          reads := 0, unread := resp.Body, elapsed := 0, stdout := [] }
      | Except.ok room =>
        let outFile : File := { data := [], room := room }
        let reader : Option rateLimitedReader :=
          if limit > 0 then some { limiter := NewLimiter limit limit 0 } else none
        let c := ioCopy outFile reader resp.Body 0
        let lim := c.src.map (fun r => r.limiter)
        match c.err with
        | some e =>
          { err := some (DownloadError.copyFailed e), file := some c.dst, limiter := lim,
            reads := c.reads, unread := c.unread, elapsed := c.clock, stdout := [] }
        | none =>
          { err := none, file := some c.dst, limiter := lim,
            reads := c.reads, unread := c.unread, elapsed := c.clock,
            stdout := ["Downloaded: " ++ outputPath] }

/-! ## What a body delivers

A reader that stops at the first non-nil error sees the entries of the script up to and
including the first one that carries an error; a script without such an entry ends with
the `(0, io.EOF)` of the exhausted body. -/

/-- The bytes of the body: the data of the entries up to and including the first one
with a non-nil error. -/
def delivered : List ReadResult → List Byte
  | [] => []
  | r :: rest =>
    match r.err with
    | some _ => r.data
    | none => r.data ++ delivered rest

/-- The first non-nil error the body returns. -/
def firstErr : List ReadResult → GoError
  | [] => GoError.eof
  | r :: rest =>
    match r.err with
    | some e => e
    | none => firstErr rest

/-- The entries after the first one with a non-nil error. -/
def afterFirstErr : List ReadResult → List ReadResult
  | [] => []
  | r :: rest =>
    match r.err with
    | some _ => rest
    | none => afterFirstErr rest

/-- The number of `Read` calls up to and including the first that returns a non-nil
error. -/
def readsUntilErr : List ReadResult → Nat
  | [] => 1
  | r :: rest =>
    match r.err with
    | some _ => 1
    | none => 1 + readsUntilErr rest

/-- The number of bytes that reads with a nil error return before the first non-nil
error. -/
def bytesBeforeErr : List ReadResult → Nat
  | [] => 0
  | r :: rest =>
    match r.err with
    | some _ => 0
    | none => r.data.length + bytesBeforeErr rest

/-- The number of bytes that come in the same read as the first non-nil error. -/
def bytesWithErr : List ReadResult → Nat
  | [] => 0
  | r :: rest =>
    match r.err with
    | some _ => r.data.length
    | none => bytesWithErr rest

/-- The file accepts `n` more bytes without a failing write. -/
def File.fits (f : File) (n : Nat) : Prop :=
  ∀ k, f.room = some k → n ≤ k

/-- The room that `os.Create` reports is enough for `n` bytes. -/
def roomFor (room : Option Nat) (n : Nat) : Prop :=
  ∀ k, room = some k → n ≤ k

/-- Rounded-up quotient of integers, for a positive divisor. -/
def ceilDiv (a b : Int) : Int := (a + b - 1) / b

/-- A world whose request succeeds with status 200 and the given body, and whose file
never refuses a write. -/
def servingWorld (body : List ReadResult) : World :=
  { httpGet := fun _ => Except.ok { StatusCode := 200, Status := "200 OK", Body := body },
    osCreate := fun _ => Except.ok none }

/-- The file after it has taken `p` in full. -/
def File.append (f : File) (p : List Byte) : File :=
  { data := f.data ++ p, room := f.room.map (fun k => k - p.length) }

/-- The pacing invariant of the bucket `lim` at the clock reading `clock`, for a budget
`K`: the bucket was last touched in the past, it is not overdrawn at `clock`, and the
tokens granted so far stay within `K` plus the time passed. -/
def Paced (K : Int) (lim : Limiter) (clock : Int) : Prop :=
  lim.last ≤ clock ∧ lim.last - lim.tokens ≤ clock ∧ lim.tokens - lim.last + lim.granted ≤ K

/-- The pacing of a body that itself takes no time, for a bucket of capacity `R` made at
the reading 0: the balance of the bucket at `clock` is `R + clock` less the tokens
granted, it lies between 0 and `R`, and the clock has moved only while the bucket was
empty. -/
def Tight (R : Int) (lim : Limiter) (clock : Int) : Prop :=
  lim.burst = R ∧ lim.last ≤ clock ∧ 0 ≤ clock ∧
  lim.tokens + (clock - lim.last) = R + clock - lim.granted ∧
  0 ≤ lim.tokens + (clock - lim.last) ∧ lim.tokens + (clock - lim.last) ≤ R ∧
  (clock = 0 ∨ lim.tokens + (clock - lim.last) = 0)

/-- The size of the buffer that `io.Copy` hands to `Read`: no read returns more bytes. -/
def copyBufferSize : Nat := 32 * 1024

/-- The bound `⌈(S - R) / R⌉` seconds, in clock ticks of `1 / R` second. -/
def ceilingBound (S R : Int) : Int := R * ceilDiv (S - R) R

/-! ## Sample worlds -/

/-- Three bytes in two reads, then end-of-stream in a read of its own. -/
def twoReads : List ReadResult := [⟨[1, 2], none, 0⟩, ⟨[3], none, 0⟩]

/-- Three bytes in three reads, one of them empty and slow, the last together
with the end of the stream. -/
def eofWithLast : List ReadResult := [⟨[1, 2], none, 0⟩, ⟨[], none, 3⟩, ⟨[3], some GoError.eof, 0⟩]

/-- Three bytes in a single read that also reports end-of-stream. -/
def eofWithData : List ReadResult := [⟨[1, 2, 3], some GoError.eof, 0⟩]

/-- Two bytes in a single read. -/
def oneRead : List ReadResult := [⟨[7, 8], none, 0⟩]

/-- The error of a connection that breaks. -/
def connReset : GoError := GoError.other "connection reset by peer"

/-- A body that breaks in its second read, which still brings one byte. -/
def brokenBody : List ReadResult := [⟨[1, 2, 3], none, 5⟩, ⟨[4], some connReset, 0⟩, ⟨[9], none, 0⟩]

/-- A payload of 30720 bytes. -/
def bigData : List Byte := List.replicate 30720 0

/-- One read that fills 30720 bytes of the 32768-byte buffer of `io.Copy`. -/
def bigChunk : ReadResult := ⟨bigData, none, 0⟩

/-- A body of 307201 bytes, one more than the limit of the label "300k": ten reads of
30720 bytes and one of a single byte, then end-of-stream in a read of its own. -/
def bigBody : List ReadResult :=
  [bigChunk, bigChunk, bigChunk, bigChunk, bigChunk, bigChunk, bigChunk, bigChunk, bigChunk,
   bigChunk, ⟨[0], none, 0⟩]

/-- A world whose request succeeds with status 200 and whose file cannot be created. -/
def noFileWorld (body : List ReadResult) : World :=
  { httpGet := fun _ => Except.ok { StatusCode := 200, Status := "200 OK", Body := body },
    osCreate := fun _ => Except.error (GoError.other "permission denied") }

/-- A world whose request is answered with status 404. -/
def notFoundWorld (body : List ReadResult) : World :=
  { httpGet := fun _ => Except.ok { StatusCode := 404, Status := "404 Not Found", Body := body },
    osCreate := fun _ => Except.ok none }

/-! ## The copy loop -/

theorem read_fst (st : CopyState) (inner : ReadResult) :
    (st.read inner).1.data = inner.data ∧ (st.read inner).1.err = inner.err := by
  unfold CopyState.read rateLimitedReader.Read
  cases st.src <;> cases h : inner.err <;> simp [h]

theorem read_snd (st : CopyState) (inner : ReadResult) :
    (st.read inner).2.dst = st.dst ∧ (st.read inner).2.unread = st.unread ∧
    (st.read inner).2.reads = st.reads + 1 ∧ (st.read inner).2.err = st.err := by
  unfold CopyState.read
  cases st.src <;> simp

theorem write_of_fits (f : File) (p : List Byte) (h : f.fits p.length) :
    f.Write p = ((p.length, none), f.append p) := by
  unfold File.Write File.append
  cases hr : f.room with
  | none => simp
  | some k =>
    have hk := h k hr
    simp [hk]

theorem append_nil (f : File) : f.append [] = f := by
  cases f with
  | mk d r => cases r <;> simp [File.append]

theorem append_append (f : File) (p q : List Byte) :
    (f.append p).append q = f.append (p ++ q) := by
  cases f with
  | mk d r => cases r <;> simp [File.append, Nat.sub_sub]

theorem fits_append (f : File) (p : List Byte) (n : Nat) (h : f.fits (p.length + n)) :
    (f.append p).fits n := by
  intro k hk
  cases f with
  | mk d r =>
    cases r with
    | none => simp [File.append] at hk
    | some m =>
      have := h m rfl
      simp [File.append] at hk
      omega

theorem copyIter_of_fits (st : CopyState) (inner : ReadResult)
    (h : st.dst.fits inner.data.length) :
    copyIter st inner =
      ({ (st.read inner).2 with
          dst := st.dst.append inner.data,
          err := match inner.err with
            | none => st.err
            | some e => if e = GoError.eof then none else some e },
        inner.err.isNone) := by
  obtain ⟨hd, he⟩ := read_fst st inner
  obtain ⟨h1, h2, h3, h4⟩ := read_snd st inner
  unfold copyIter
  simp only [hd, he]
  generalize (st.read inner).2 = s at h1 h2 h3 h4 ⊢
  cases s with
  | mk d sr c rd u e =>
    simp only at h1 h4
    subst h1 h4
    by_cases hn : 0 < inner.data.length
    · rw [if_pos hn, write_of_fits _ _ h]
      cases hi : inner.err <;> simp
    · have hnil : inner.data = [] := by
        cases hx : inner.data with
        | nil => rfl
        | cons a t => simp [hx] at hn
      rw [if_neg hn]
      cases hi : inner.err <;> simp [hnil, append_nil]

theorem waitN_ok (K : Int) (lim : Limiter) (now n : Int) (hn : n ≤ lim.burst)
    (hinv : Paced K lim now) :
    (lim.WaitN now n).1 = none ∧ (lim.WaitN now n).2.1.burst = lim.burst ∧
    (lim.WaitN now n).2.1.granted = lim.granted + n ∧
    (lim.WaitN now n).2.1.refused = lim.refused ∧
    Paced K (lim.WaitN now n).2.1 (lim.WaitN now n).2.2 ∧ now ≤ (lim.WaitN now n).2.2 := by
  obtain ⟨a, b, c⟩ := hinv
  unfold Limiter.WaitN Paced
  simp only [gt_iff_lt, not_lt.mpr hn, if_false, not_lt.mpr a]
  refine ⟨trivial, trivial, trivial, trivial, ⟨?_, ?_, ?_⟩, ?_⟩ <;> omega

theorem copyBuffer_spec (body : List ReadResult) :
    ∀ st : CopyState, st.dst.fits (delivered body).length → st.unread = body →
      (copyBuffer body st).dst = st.dst.append (delivered body) ∧
      (copyBuffer body st).err =
        (if firstErr body = GoError.eof then none else some (firstErr body)) ∧
      (copyBuffer body st).unread = afterFirstErr body ∧
      (copyBuffer body st).reads = st.reads + readsUntilErr body := by
  induction body with
  | nil =>
    intro st hf hu
    have hfit : st.dst.fits endOfBody.data.length := by
      intro k _; simp [endOfBody]
    obtain ⟨h1, h2, h3, h4⟩ := read_snd st endOfBody
    rw [copyBuffer, copyIter_of_fits st endOfBody hfit]
    have hd : endOfBody.data = [] := rfl
    have he : endOfBody.err = some GoError.eof := rfl
    simp [delivered, firstErr, afterFirstErr, readsUntilErr, append_nil, h2, h3, hu, hd, he]
  | cons r rest ih =>
    intro st hf hu
    obtain ⟨h1, h2, h3, h4⟩ := read_snd { st with unread := rest } r
    cases he : r.err with
    | some e =>
      have hfit : ({ st with unread := rest } : CopyState).dst.fits r.data.length := by
        simpa [delivered, he] using hf
      simp [copyBuffer, copyIter_of_fits _ r hfit, delivered, firstErr, afterFirstErr,
        readsUntilErr, he, h2, h3]
    | none =>
      have hf2 : st.dst.fits (r.data.length + (delivered rest).length) := by
        simpa [delivered, he] using hf
      have hfit : ({ st with unread := rest } : CopyState).dst.fits r.data.length := by
        intro k hk
        have := hf2 k hk
        omega
      have hstep := copyIter_of_fits _ r hfit
      have hrec := ih (copyIter { st with unread := rest } r).1
        (by rw [hstep]; exact fits_append _ _ _ hf2) (by rw [hstep]; simpa using h2)
      obtain ⟨r1, r2, r3, r4⟩ := hrec
      have hgo : (copyIter { st with unread := rest } r).2 = true := by
        rw [hstep]; simp [he]
      simp only [copyBuffer, hgo, if_true]
      refine ⟨?_, ?_, ?_, ?_⟩
      · rw [r1, hstep]; simp [delivered, he, append_append]
      · rw [r2]; simp [firstErr, he]
      · rw [r3]; simp [afterFirstErr, he]
      · rw [r4, hstep]; simp [readsUntilErr, he, h3]; omega

theorem read_src_some (st : CopyState) (r : rateLimitedReader) (inner : ReadResult)
    (hs : st.src = some r) :
    (st.read inner).2.src = some (r.Read inner (st.clock + inner.delay)).2.1 ∧
    (st.read inner).2.clock = (r.Read inner (st.clock + inner.delay)).2.2 := by
  unfold CopyState.read
  simp [hs]

theorem read_src_none (st : CopyState) (inner : ReadResult) (hs : st.src = none) :
    (st.read inner).2.src = none ∧ (st.read inner).2.clock = st.clock + inner.delay := by
  unfold CopyState.read
  simp [hs]

theorem Read_of_err (r : rateLimitedReader) (inner : ReadResult) (now : Int) (e : GoError)
    (he : inner.err = some e) :
    r.Read inner now = (⟨inner.data, some e, 0⟩, r, now) := by
  unfold rateLimitedReader.Read
  simp [he]

theorem Read_of_nil (r : rateLimitedReader) (inner : ReadResult) (now : Int)
    (he : inner.err = none) :
    r.Read inner now =
      (⟨inner.data, none, 0⟩, { limiter := (r.limiter.WaitN now inner.data.length).2.1 },
        (r.limiter.WaitN now inner.data.length).2.2) := by
  unfold rateLimitedReader.Read
  simp [he]

theorem Paced.mono {K : Int} {lim : Limiter} {c c' : Int} (h : Paced K lim c) (hc : c ≤ c') :
    Paced K lim c' := by
  obtain ⟨a, b, d⟩ := h
  exact ⟨by omega, by omega, d⟩

theorem copyBuffer_paced (K : Int) (body : List ReadResult) :
    ∀ (st : CopyState) (r : rateLimitedReader), st.src = some r →
      st.dst.fits (delivered body).length →
      (∀ x ∈ body, (x.data.length : Int) ≤ r.limiter.burst) →
      Paced K r.limiter st.clock →
      ∃ r', (copyBuffer body st).src = some r' ∧
        r'.limiter.burst = r.limiter.burst ∧
        r'.limiter.granted = r.limiter.granted + bytesBeforeErr body ∧
        r'.limiter.refused = r.limiter.refused ∧
        Paced K r'.limiter (copyBuffer body st).clock := by
  induction body with
  | nil =>
    intro st r hs hf _ hp
    have hfit : st.dst.fits endOfBody.data.length := by
      intro k _; simp [endOfBody]
    obtain ⟨s1, s2⟩ := read_src_some st r endOfBody hs
    rw [Read_of_err r endOfBody _ GoError.eof rfl] at s1 s2
    refine ⟨r, ?_, rfl, ?_, rfl, ?_⟩
    · rw [copyBuffer, copyIter_of_fits st endOfBody hfit]; simpa using s1
    · simp [bytesBeforeErr]
    · rw [copyBuffer, copyIter_of_fits st endOfBody hfit]
      simp only [s2]
      exact hp.mono (by simp [endOfBody])
  | cons x rest ih =>
    intro st r hs hf hb hp
    have hs' : ({ st with unread := rest } : CopyState).src = some r := hs
    obtain ⟨s1, s2⟩ := read_src_some _ r x hs'
    cases he : x.err with
    | some e =>
      have hfit : ({ st with unread := rest } : CopyState).dst.fits x.data.length := by
        simpa [delivered, he] using hf
      rw [Read_of_err r x _ e he] at s1 s2
      have hstep := copyIter_of_fits _ x hfit
      have hgo : (copyIter { st with unread := rest } x).2 = false := by
        rw [hstep]; simp [he]
      refine ⟨r, ?_, rfl, ?_, rfl, ?_⟩
      · simp only [copyBuffer, hgo]; rw [hstep]; simpa using s1
      · simp [bytesBeforeErr, he]
      · simp only [copyBuffer, hgo]; rw [hstep]
        simp only [s2]
        exact hp.mono (by simp)
    | none =>
      have hf2 : st.dst.fits (x.data.length + (delivered rest).length) := by
        simpa [delivered, he] using hf
      have hfit : ({ st with unread := rest } : CopyState).dst.fits x.data.length := by
        intro k hk
        have := hf2 k hk
        omega
      rw [Read_of_nil r x _ he] at s1 s2
      have hstep := copyIter_of_fits _ x hfit
      have hgo : (copyIter { st with unread := rest } x).2 = true := by
        rw [hstep]; simp [he]
      have hx : (x.data.length : Int) ≤ r.limiter.burst := hb x (List.mem_cons_self _ _)
      have hp1 : Paced K r.limiter (st.clock + x.delay) := hp.mono (by simp)
      obtain ⟨w1, w2, w3, w4, w5, w6⟩ := waitN_ok K r.limiter (st.clock + x.delay) _ hx hp1
      have hrec := ih (copyIter { st with unread := rest } x).1
        { limiter := (r.limiter.WaitN (st.clock + x.delay) x.data.length).2.1 }
        (by rw [hstep]; simpa using s1)
        (by rw [hstep]; exact fits_append _ _ _ hf2)
        (by intro y hy; rw [w2]; exact hb y (List.mem_cons_of_mem _ hy))
        (by rw [hstep]; simpa [s2] using w5)
      obtain ⟨r', q1, q2, q3, q4, q5⟩ := hrec
      refine ⟨r', ?_, ?_, ?_, ?_, ?_⟩
      · simp only [copyBuffer, hgo, if_true]; exact q1
      · rw [q2, w2]
      · rw [q3, w3]; simp [bytesBeforeErr, he]; omega
      · rw [q4, w4]
      · simp only [copyBuffer, hgo, if_true]; exact q5

theorem copyIter_frame (st : CopyState) (inner : ReadResult) :
    (copyIter st inner).1.src = (st.read inner).2.src ∧
    (copyIter st inner).1.clock = (st.read inner).2.clock ∧
    (copyIter st inner).1.reads = (st.read inner).2.reads ∧
    (copyIter st inner).1.unread = (st.read inner).2.unread := by
  unfold copyIter
  dsimp only
  refine ⟨?_, ?_, ?_, ?_⟩ <;> (repeat' split) <;> rfl

theorem copyBuffer_src_isSome (body : List ReadResult) :
    ∀ st : CopyState, st.src.isSome = true → (copyBuffer body st).src.isSome = true := by
  induction body with
  | nil =>
    intro st hs
    obtain ⟨r, hr⟩ := Option.isSome_iff_exists.mp hs
    rw [copyBuffer, (copyIter_frame st endOfBody).1, (read_src_some st r endOfBody hr).1]
    rfl
  | cons x rest ih =>
    intro st hs
    obtain ⟨r, hr⟩ := Option.isSome_iff_exists.mp hs
    have hr' : ({ st with unread := rest } : CopyState).src = some r := hr
    have h1 : (copyIter { st with unread := rest } x).1.src.isSome = true := by
      rw [(copyIter_frame _ x).1, (read_src_some _ r x hr').1]; rfl
    simp only [copyBuffer]
    split
    · exact ih _ h1
    · exact h1

theorem delivered_length (body : List ReadResult) :
    (delivered body).length = bytesBeforeErr body + bytesWithErr body := by
  induction body with
  | nil => simp [delivered, bytesBeforeErr, bytesWithErr]
  | cons r rest ih =>
    cases he : r.err with
    | some e => simp [delivered, bytesBeforeErr, bytesWithErr, he]
    | none => simp [delivered, bytesBeforeErr, bytesWithErr, he, ih]; omega

theorem fits_of_roomFor (room : Option Nat) (n : Nat) (h : roomFor room n) :
    ({ data := [], room := room } : File).fits n := by
  intro k hk
  exact h k hk

theorem downloadFile_streams (w : World) (url outputPath : String) (limit : Int)
    (resp : Response) (room : Option Nat)
    (hg : w.httpGet url = Except.ok resp) (hs : resp.StatusCode = StatusOK)
    (hc : w.osCreate outputPath = Except.ok room) :
    (downloadFile w url outputPath limit).err =
        (ioCopy { data := [], room := room }
          (if limit > 0 then some { limiter := NewLimiter limit limit 0 } else none)
          resp.Body 0).err.map DownloadError.copyFailed ∧
    (downloadFile w url outputPath limit).file =
        some (ioCopy { data := [], room := room }
          (if limit > 0 then some { limiter := NewLimiter limit limit 0 } else none)
          resp.Body 0).dst ∧
    (downloadFile w url outputPath limit).limiter =
        (ioCopy { data := [], room := room }
          (if limit > 0 then some { limiter := NewLimiter limit limit 0 } else none)
          resp.Body 0).src.map (fun r => r.limiter) ∧
    (downloadFile w url outputPath limit).reads =
        (ioCopy { data := [], room := room }
          (if limit > 0 then some { limiter := NewLimiter limit limit 0 } else none)
          resp.Body 0).reads ∧
    (downloadFile w url outputPath limit).unread =
        (ioCopy { data := [], room := room }
          (if limit > 0 then some { limiter := NewLimiter limit limit 0 } else none)
          resp.Body 0).unread ∧
    (downloadFile w url outputPath limit).elapsed =
        (ioCopy { data := [], room := room }
          (if limit > 0 then some { limiter := NewLimiter limit limit 0 } else none)
          resp.Body 0).clock := by
  unfold downloadFile
  simp only [hg, hs, hc, ne_eq, not_true_eq_false, if_false]
  cases he : (ioCopy { data := [], room := room }
      (if limit > 0 then some { limiter := NewLimiter limit limit 0 } else none)
      resp.Body 0).err <;> simp [he]

theorem ioCopy_spec (room : Option Nat) (src : Option rateLimitedReader)
    (body : List ReadResult) (now : Int) (hfit : roomFor room (delivered body).length) :
    (ioCopy { data := [], room := room } src body now).dst.data = delivered body ∧
    (ioCopy { data := [], room := room } src body now).err =
      (if firstErr body = GoError.eof then none else some (firstErr body)) ∧
    (ioCopy { data := [], room := room } src body now).unread = afterFirstErr body ∧
    (ioCopy { data := [], room := room } src body now).reads = readsUntilErr body := by
  obtain ⟨h1, h2, h3, h4⟩ := copyBuffer_spec body
    { dst := { data := [], room := room }, src := src, clock := now, reads := 0,
      unread := body, err := none } (fits_of_roomFor room _ hfit) rfl
  unfold ioCopy
  refine ⟨?_, h2, h3, ?_⟩
  · rw [h1]; simp [File.append]
  · rw [h4]; simp


theorem copyBuffer_src_none (body : List ReadResult) :
    ∀ st : CopyState, st.src = none → (copyBuffer body st).src = none := by
  induction body with
  | nil =>
    intro st hs
    rw [copyBuffer, (copyIter_frame st endOfBody).1, (read_src_none st endOfBody hs).1]
  | cons x rest ih =>
    intro st hs
    have hs' : ({ st with unread := rest } : CopyState).src = none := hs
    have h1 : (copyIter { st with unread := rest } x).1.src = none := by
      rw [(copyIter_frame _ x).1, (read_src_none _ x hs').1]
    simp only [copyBuffer]
    split
    · exact ih _ h1
    · exact h1

/-- What `downloadFile` returns and leaves behind once the request has succeeded with
status 200 and the file has been created, when no write fails. -/
theorem stream_outcome (w : World) (url outputPath : String) (limit : Int)
    (resp : Response) (room : Option Nat)
    (hg : w.httpGet url = Except.ok resp) (hs : resp.StatusCode = StatusOK)
    (hc : w.osCreate outputPath = Except.ok room)
    (hwrite : roomFor room (delivered resp.Body).length) :
    (downloadFile w url outputPath limit).err =
      (if firstErr resp.Body = GoError.eof then none
       else some (DownloadError.copyFailed (firstErr resp.Body))) ∧
    (downloadFile w url outputPath limit).file.map File.data = some (delivered resp.Body) ∧
    (downloadFile w url outputPath limit).unread = afterFirstErr resp.Body ∧
    (downloadFile w url outputPath limit).reads = readsUntilErr resp.Body := by
  obtain ⟨d1, d2, -, d4, d5, -⟩ := downloadFile_streams w url outputPath limit resp room hg hs hc
  obtain ⟨c1, c2, c3, c4⟩ := ioCopy_spec room
    (if limit > 0 then some { limiter := NewLimiter limit limit 0 } else none) resp.Body 0 hwrite
  refine ⟨?_, ?_, ?_, ?_⟩
  · rw [d1, c2]; split <;> rfl
  · rw [d2]; exact congrArg some c1
  · rw [d5, c3]
  · rw [d4, c4]

/-- Whether `downloadFile` makes a limiter: it does exactly when `limit > 0`. -/
theorem stream_limiter (w : World) (url outputPath : String) (limit : Int)
    (resp : Response) (room : Option Nat)
    (hg : w.httpGet url = Except.ok resp) (hs : resp.StatusCode = StatusOK)
    (hc : w.osCreate outputPath = Except.ok room) :
    (0 < limit → (downloadFile w url outputPath limit).limiter.isSome = true) ∧
    (limit ≤ 0 → (downloadFile w url outputPath limit).limiter = none) := by
  obtain ⟨-, -, d3, -⟩ := downloadFile_streams w url outputPath limit resp room hg hs hc
  constructor
  · intro hpos
    rw [d3, if_pos hpos]
    have := copyBuffer_src_isSome resp.Body
      { dst := { data := [], room := room }, src := some { limiter := NewLimiter limit limit 0 },
        clock := 0, reads := 0, unread := resp.Body, err := none } rfl
    unfold ioCopy
    simpa using this
  · intro hle
    rw [d3, if_neg (by omega)]
    have := copyBuffer_src_none resp.Body
      { dst := { data := [], room := room }, src := none,
        clock := 0, reads := 0, unread := resp.Body, err := none } rfl
    unfold ioCopy
    rw [this]; rfl

/-- The tokens granted and the time taken by a throttled `downloadFile`, when no write
fails and no read returns more bytes than the limit. -/
theorem stream_pacing (w : World) (url outputPath : String) (limit : Int)
    (resp : Response) (room : Option Nat)
    (hg : w.httpGet url = Except.ok resp) (hs : resp.StatusCode = StatusOK)
    (hc : w.osCreate outputPath = Except.ok room)
    (hlimit : 0 < limit)
    (hwrite : roomFor room (delivered resp.Body).length)
    (hsize : ∀ x ∈ resp.Body, (x.data.length : Int) ≤ limit) :
    (downloadFile w url outputPath limit).limiter.map Limiter.granted =
      some (bytesBeforeErr resp.Body : Int) ∧
    (downloadFile w url outputPath limit).limiter.map Limiter.refused = some 0 ∧
    (bytesBeforeErr resp.Body : Int) - limit ≤ (downloadFile w url outputPath limit).elapsed := by
  obtain ⟨-, -, d3, -, -, d6⟩ := downloadFile_streams w url outputPath limit resp room hg hs hc
  rw [if_pos hlimit] at d3 d6
  have hp : Paced limit (NewLimiter limit limit 0) 0 := by
    unfold Paced NewLimiter
    simp only
    omega
  obtain ⟨r', q1, -, q3, q4, q5⟩ := copyBuffer_paced limit resp.Body
    { dst := { data := [], room := room }, src := some { limiter := NewLimiter limit limit 0 },
      clock := 0, reads := 0, unread := resp.Body, err := none }
    { limiter := NewLimiter limit limit 0 } rfl (fits_of_roomFor room _ hwrite) hsize hp
  have q1' : (ioCopy { data := [], room := room } (some { limiter := NewLimiter limit limit 0 })
      resp.Body 0).src = some r' := q1
  have q5' : Paced limit r'.limiter (ioCopy { data := [], room := room }
      (some { limiter := NewLimiter limit limit 0 }) resp.Body 0).clock := q5
  obtain ⟨p1, p2, p3⟩ := q5'
  have g0 : (NewLimiter limit limit 0).granted = 0 := rfl
  have f0 : (NewLimiter limit limit 0).refused = 0 := rfl
  refine ⟨?_, ?_, ?_⟩
  · rw [d3, q1']; simp [q3, g0]
  · rw [d3, q1']; simp [q4, f0]
  · rw [d6]
    rw [q3, g0] at p3
    omega
theorem lookup_unknown (s : String) (h1 : s ≠ "300k") (h2 : s ≠ "700k") (h3 : s ≠ "2M") :
    validLimits.lookup s = none := by
  have e1 : (s == "300k") = false := beq_eq_false_iff_ne.mpr h1
  have e2 : (s == "700k") = false := beq_eq_false_iff_ne.mpr h2
  have e3 : (s == "2M") = false := beq_eq_false_iff_ne.mpr h3
  simp [validLimits, List.lookup, e1, e2, e3]

/-- What one call of `WaitN` does for a request within the capacity, whatever the state
of the bucket. -/
theorem waitN_grants (lim : Limiter) (now n : Int) (hn : n ≤ lim.burst) :
    (lim.WaitN now n).1 = none ∧
    (lim.WaitN now n).2.1.granted = lim.granted + n ∧
    (lim.WaitN now n).2.1.refused = lim.refused ∧
    now ≤ (lim.WaitN now n).2.2 ∧
    0 ≤ (lim.WaitN now n).2.1.tokens + ((lim.WaitN now n).2.2 - (lim.WaitN now n).2.1.last) := by
  unfold Limiter.WaitN
  simp only [gt_iff_lt, not_lt.mpr hn, if_false]
  refine ⟨trivial, trivial, trivial, ?_, ?_⟩ <;> split_ifs <;> omega

/-! ## Exact pacing of a body that takes no time -/

theorem waitN_tight (R : Int) (lim : Limiter) (now n : Int) (hn : n ≤ lim.burst) (h0 : 0 ≤ n)
    (ht : Tight R lim now) :
    (lim.WaitN now n).2.1.granted = lim.granted + n ∧
    Tight R (lim.WaitN now n).2.1 (lim.WaitN now n).2.2 := by
  obtain ⟨a, b, c, d, e, f, g⟩ := ht
  unfold Limiter.WaitN Tight
  simp only [gt_iff_lt, not_lt.mpr hn, if_false, not_lt.mpr b]
  refine ⟨trivial, a, ?_, ?_, ?_, ?_, ?_, ?_⟩ <;> omega

theorem copyBuffer_tight (R : Int) (body : List ReadResult) :
    ∀ (st : CopyState) (r : rateLimitedReader), st.src = some r →
      st.dst.fits (delivered body).length →
      (∀ x ∈ body, (x.data.length : Int) ≤ R ∧ x.delay = 0) →
      Tight R r.limiter st.clock →
      ∃ r', (copyBuffer body st).src = some r' ∧
        r'.limiter.granted = r.limiter.granted + bytesBeforeErr body ∧
        Tight R r'.limiter (copyBuffer body st).clock := by
  induction body with
  | nil =>
    intro st r hs hf _ hp
    have hfit : st.dst.fits endOfBody.data.length := by
      intro k _; simp [endOfBody]
    obtain ⟨s1, s2⟩ := read_src_some st r endOfBody hs
    rw [Read_of_err r endOfBody _ GoError.eof rfl] at s1 s2
    have hz : st.clock + (endOfBody.delay : Int) = st.clock := by simp [endOfBody]
    refine ⟨r, ?_, ?_, ?_⟩
    · rw [copyBuffer, copyIter_of_fits st endOfBody hfit]; simpa using s1
    · simp [bytesBeforeErr]
    · rw [copyBuffer, copyIter_of_fits st endOfBody hfit]
      simp only [s2, hz]
      exact hp
  | cons x rest ih =>
    intro st r hs hf hb hp
    have hs' : ({ st with unread := rest } : CopyState).src = some r := hs
    obtain ⟨s1, s2⟩ := read_src_some _ r x hs'
    obtain ⟨hx, hd⟩ := hb x (List.mem_cons_self _ _)
    have hz : st.clock + (x.delay : Int) = st.clock := by simp [hd]
    have hz' : ({ st with unread := rest } : CopyState).clock + (x.delay : Int) = st.clock := hz
    rw [hz'] at s1 s2
    cases he : x.err with
    | some e =>
      have hfit : ({ st with unread := rest } : CopyState).dst.fits x.data.length := by
        simpa [delivered, he] using hf
      rw [Read_of_err r x _ e he] at s1 s2
      have hstep := copyIter_of_fits _ x hfit
      have hgo : (copyIter { st with unread := rest } x).2 = false := by
        rw [hstep]; simp [he]
      refine ⟨r, ?_, ?_, ?_⟩
      · simp only [copyBuffer, hgo]; rw [hstep]; simpa using s1
      · simp [bytesBeforeErr, he]
      · simp only [copyBuffer, hgo]; rw [hstep]
        simp only [s2]
        exact hp
    | none =>
      have hf2 : st.dst.fits (x.data.length + (delivered rest).length) := by
        simpa [delivered, he] using hf
      have hfit : ({ st with unread := rest } : CopyState).dst.fits x.data.length := by
        intro k hk
        have := hf2 k hk
        omega
      rw [Read_of_nil r x _ he] at s1 s2
      have hstep := copyIter_of_fits _ x hfit
      have hgo : (copyIter { st with unread := rest } x).2 = true := by
        rw [hstep]; simp [he]
      have hx' : (x.data.length : Int) ≤ r.limiter.burst := by rw [hp.1]; exact hx
      obtain ⟨w1, w2⟩ := waitN_tight R r.limiter st.clock _ hx' (by omega) hp
      have hrec := ih (copyIter { st with unread := rest } x).1
        { limiter := (r.limiter.WaitN st.clock x.data.length).2.1 }
        (by rw [hstep]; simpa using s1)
        (by rw [hstep]; exact fits_append _ _ _ hf2)
        (by intro y hy; exact hb y (List.mem_cons_of_mem _ hy))
        (by rw [hstep]; simpa [s2] using w2)
      obtain ⟨r', q1, q2, q3⟩ := hrec
      refine ⟨r', ?_, ?_, ?_⟩
      · simp only [copyBuffer, hgo, if_true]; exact q1
      · rw [q2, w1]; simp [bytesBeforeErr, he]; omega
      · simp only [copyBuffer, hgo, if_true]; exact q3

/-- The exact time a throttled `downloadFile` takes when the body itself takes no time,
no write fails and no read returns more bytes than the limit: nothing up to `limit`
paced bytes, one tick for each paced byte beyond. -/
theorem stream_exact_time (w : World) (url outputPath : String) (limit : Int)
    (resp : Response) (room : Option Nat)
    (hg : w.httpGet url = Except.ok resp) (hs : resp.StatusCode = StatusOK)
    (hc : w.osCreate outputPath = Except.ok room)
    (hlimit : 0 < limit)
    (hwrite : roomFor room (delivered resp.Body).length)
    (hsize : ∀ x ∈ resp.Body, (x.data.length : Int) ≤ limit ∧ x.delay = 0) :
    (downloadFile w url outputPath limit).elapsed
      = max 0 ((bytesBeforeErr resp.Body : Int) - limit) := by
  obtain ⟨-, -, -, -, -, d6⟩ := downloadFile_streams w url outputPath limit resp room hg hs hc
  rw [if_pos hlimit] at d6
  have hp : Tight limit (NewLimiter limit limit 0) 0 := by
    unfold Tight NewLimiter
    refine ⟨rfl, le_refl _, le_refl _, ?_, ?_, ?_, Or.inl rfl⟩ <;> simp only <;> omega
  obtain ⟨r', -, q3, q5⟩ := copyBuffer_tight limit resp.Body
    { dst := { data := [], room := room }, src := some { limiter := NewLimiter limit limit 0 },
      clock := 0, reads := 0, unread := resp.Body, err := none }
    { limiter := NewLimiter limit limit 0 } rfl (fits_of_roomFor room _ hwrite) hsize hp
  have q5' : Tight limit r'.limiter (ioCopy { data := [], room := room }
      (some { limiter := NewLimiter limit limit 0 }) resp.Body 0).clock := q5
  obtain ⟨-, p2, p3, p4, p5, p6, p7⟩ := q5'
  have g0 : (NewLimiter limit limit 0).granted = 0 := rfl
  rw [d6]
  rw [q3, g0] at p4
  generalize (ioCopy { data := [], room := room }
      (some { limiter := NewLimiter limit limit 0 }) resp.Body 0).clock = c at p2 p3 p4 p5 p6 p7 ⊢
  rcases p7 with h | h
  · rw [max_eq_left (by omega)]; exact h
  · rw [max_eq_right (by omega)]; omega

/-! ## A body one byte above the lowest limit -/

theorem bigData_length : bigData.length = 30720 := by
  rw [bigData, List.length_replicate]

theorem bigChunk_data : bigChunk.data = bigData := rfl
theorem bigChunk_err : bigChunk.err = none := rfl
theorem bigChunk_delay : bigChunk.delay = 0 := rfl
theorem bigChunk_len : bigChunk.data.length = 30720 := by
  rw [bigChunk_data]; exact bigData_length

theorem bytesBeforeErr_cons (r : ReadResult) (rest : List ReadResult) (h : r.err = none) :
    bytesBeforeErr (r :: rest) = r.data.length + bytesBeforeErr rest := by
  simp [bytesBeforeErr, h]

theorem bytesWithErr_cons (r : ReadResult) (rest : List ReadResult) (h : r.err = none) :
    bytesWithErr (r :: rest) = bytesWithErr rest := by
  simp [bytesWithErr, h]

theorem bigBody_paced : bytesBeforeErr bigBody = 307201 := by
  unfold bigBody
  repeat rw [bytesBeforeErr_cons _ _ bigChunk_err, bigChunk_len]
  rfl

theorem bigBody_withErr : bytesWithErr bigBody = 0 := by
  unfold bigBody
  repeat rw [bytesWithErr_cons _ _ bigChunk_err]
  rfl

theorem bigBody_size : (delivered bigBody).length = 307201 := by
  rw [delivered_length, bigBody_paced, bigBody_withErr]

theorem bigBody_reads : ∀ x ∈ bigBody, (x.data.length : Int) ≤ 307200 ∧ x.delay = 0 := by
  intro x hx
  simp only [bigBody, List.mem_cons, List.mem_singleton, List.not_mem_nil, or_false] at hx
  rcases hx with h | h | h | h | h | h | h | h | h | h | h <;> subst h
  all_goals first
    | (rw [bigChunk_len, bigChunk_delay]; exact ⟨by decide, rfl⟩)
    | exact ⟨by decide, rfl⟩

theorem bigBody_firstErr : firstErr bigBody = GoError.eof := by
  simp only [bigBody, firstErr, bigChunk_err]

/-- The limits `parseRateLimit` returns without an error: 0, or at least 307200. -/
theorem parseRateLimit_limit (label : String) (limit : Int)
    (h : parseRateLimit label = (limit, none)) : limit = 0 ∨ 307200 ≤ limit := by
  by_cases h0 : label = ""
  · subst h0
    have : parseRateLimit "" = (0, none) := by decide
    rw [this] at h
    left
    exact (congrArg Prod.fst h).symm
  by_cases h1 : label = "300k"
  · subst h1
    have : parseRateLimit "300k" = (307200, none) := by decide
    rw [this] at h
    right
    have := congrArg Prod.fst h
    simp only at this
    omega
  by_cases h2 : label = "700k"
  · subst h2
    have : parseRateLimit "700k" = (716800, none) := by decide
    rw [this] at h
    right
    have := congrArg Prod.fst h
    simp only at this
    omega
  by_cases h3 : label = "2M"
  · subst h3
    have : parseRateLimit "2M" = (2097152, none) := by decide
    rw [this] at h
    right
    have := congrArg Prod.fst h
    simp only at this
    omega
  exfalso
  have hl := lookup_unknown label h1 h2 h3
  have := congrArg Prod.snd h
  simp [parseRateLimit, h0, hl] at this

/-! ## The claims -/

/-- Claim C1. `parseRateLimit` returns 0 for the empty label, 307200 for "300k", 716800
for "700k" and 2097152 for "2M", each time with a nil error. -/
theorem parseRateLimit_labels :
    parseRateLimit "" = (0, none) ∧ parseRateLimit "300k" = (307200, none) ∧
    parseRateLimit "700k" = (716800, none) ∧ parseRateLimit "2M" = (2097152, none) := by
  decide

/-- Claim C2. For every string, `parseRateLimit` returns an error exactly when the string
is none of "", "300k", "700k", "2M", and then the returned limit is 0 (the result is the
pair of 0 and the error of line 28); "300K", "2m", " 300k" and "300" all fail. -/
theorem parseRateLimit_error_iff (s : String) :
    ((parseRateLimit s).2 ≠ none ↔ s ∉ acceptedLabels) ∧
    (s ∉ acceptedLabels ↔ parseRateLimit s = (0, some (GoError.other rateLimitMessage))) ∧
    parseRateLimit "300K" = (0, some (GoError.other rateLimitMessage)) ∧
    parseRateLimit "2m" = (0, some (GoError.other rateLimitMessage)) ∧
    parseRateLimit " 300k" = (0, some (GoError.other rateLimitMessage)) ∧
    parseRateLimit "300" = (0, some (GoError.other rateLimitMessage)) := by
  refine ⟨?_, ?_, by decide, by decide, by decide, by decide⟩
  · by_cases h0 : s = ""
    · subst h0; decide
    by_cases h1 : s = "300k"
    · subst h1; decide
    by_cases h2 : s = "700k"
    · subst h2; decide
    by_cases h3 : s = "2M"
    · subst h3; decide
    simp [parseRateLimit, h0, lookup_unknown s h1 h2 h3, acceptedLabels, h1, h2, h3]
  · by_cases h0 : s = ""
    · subst h0; decide
    by_cases h1 : s = "300k"
    · subst h1; decide
    by_cases h2 : s = "700k"
    · subst h2; decide
    by_cases h3 : s = "2M"
    · subst h3; decide
    simp [parseRateLimit, h0, lookup_unknown s h1 h2 h3, acceptedLabels, h1, h2, h3]

/-- Claim C3. With limit 0, once the request has succeeded and the file is created, if no
read fails (the first non-nil error of the body is end-of-stream) and no write fails,
`downloadFile` returns nil, no limiter is made, and the file holds exactly the bytes of
the body, in order, however they are split into reads and also when there are none. -/
theorem unthrottled_copy_exact (w : World) (url outputPath : String)
    (resp : Response) (room : Option Nat)
    (hg : w.httpGet url = Except.ok resp) (hs : resp.StatusCode = StatusOK)
    (hc : w.osCreate outputPath = Except.ok room)
    (hread : firstErr resp.Body = GoError.eof)
    (hwrite : roomFor room (delivered resp.Body).length) :
    (downloadFile w url outputPath 0).err = none ∧
    (downloadFile w url outputPath 0).limiter = none ∧
    (downloadFile w url outputPath 0).file.map File.data = some (delivered resp.Body) := by
  obtain ⟨o1, o2, -⟩ := stream_outcome w url outputPath 0 resp room hg hs hc hwrite
  refine ⟨?_, ?_, o2⟩
  · rw [o1, if_pos hread]
  · exact (stream_limiter w url outputPath 0 resp room hg hs hc).2 (le_refl 0)

/-- Witness of `unthrottled_copy_exact`: three bytes in three reads, the last one together
with end-of-stream. -/
theorem unthrottled_copy_exact_witness :
    (downloadFile (servingWorld eofWithLast) "http://h/a.bin" "a.bin" 0).err = none ∧
    (downloadFile (servingWorld eofWithLast) "http://h/a.bin" "a.bin" 0).limiter = none ∧
    (downloadFile (servingWorld eofWithLast) "http://h/a.bin" "a.bin" 0).file.map File.data
      = some [1, 2, 3] :=
  unthrottled_copy_exact (servingWorld eofWithLast) "http://h/a.bin" "a.bin"
    { StatusCode := 200, Status := "200 OK", Body := eofWithLast } none rfl rfl rfl
    (by decide) (by intro k hk; cases hk)

/-- Claim C4. With a limit above 0, once the request has succeeded and the file is
created, if no read fails and no write fails, `downloadFile` copies through a
`rateLimitedReader`, returns nil, and the file holds exactly the bytes of the body, the
same content as the copy with limit 0 leaves, however the body is split into reads. -/
theorem throttled_copy_exact (w : World) (url outputPath : String) (limit : Int)
    (resp : Response) (room : Option Nat)
    (hg : w.httpGet url = Except.ok resp) (hs : resp.StatusCode = StatusOK)
    (hc : w.osCreate outputPath = Except.ok room)
    (hlimit : 0 < limit)
    (hread : firstErr resp.Body = GoError.eof)
    (hwrite : roomFor room (delivered resp.Body).length) :
    (downloadFile w url outputPath limit).err = none ∧
    (downloadFile w url outputPath limit).limiter.isSome = true ∧
    (downloadFile w url outputPath limit).file.map File.data = some (delivered resp.Body) ∧
    (downloadFile w url outputPath limit).file.map File.data =
      (downloadFile w url outputPath 0).file.map File.data := by
  obtain ⟨o1, o2, -⟩ := stream_outcome w url outputPath limit resp room hg hs hc hwrite
  obtain ⟨-, u2, -⟩ := stream_outcome w url outputPath 0 resp room hg hs hc hwrite
  refine ⟨?_, ?_, o2, ?_⟩
  · rw [o1, if_pos hread]
  · exact (stream_limiter w url outputPath limit resp room hg hs hc).1 hlimit
  · rw [o2, u2]

/-- Witness of `throttled_copy_exact`: limit 2, three bytes, the last one together with
the end of the stream. -/
theorem throttled_copy_exact_witness :
    (downloadFile (servingWorld eofWithLast) "http://h/a.bin" "a.bin" 2).err = none ∧
    (downloadFile (servingWorld eofWithLast) "http://h/a.bin" "a.bin" 2).limiter.isSome = true ∧
    (downloadFile (servingWorld eofWithLast) "http://h/a.bin" "a.bin" 2).file.map File.data
      = some [1, 2, 3] ∧
    (downloadFile (servingWorld eofWithLast) "http://h/a.bin" "a.bin" 2).file.map File.data =
      (downloadFile (servingWorld eofWithLast) "http://h/a.bin" "a.bin" 0).file.map File.data :=
  throttled_copy_exact (servingWorld eofWithLast) "http://h/a.bin" "a.bin" 2
    { StatusCode := 200, Status := "200 OK", Body := eofWithLast } none rfl rfl rfl
    (by decide) (by decide) (by intro k hk; cases hk)

/-- Claim C5. For every limit, zero or not: if a read of the body returns an error other
than end-of-stream and no write fails, `downloadFile` returns the "download failed" error
that wraps this read error, the file holds exactly the bytes delivered up to and
including the failing read, the body is not read again (every entry after the failing
one is unread, and the number of reads is that of the reads up to the failing one). -/
theorem read_error_aborts (w : World) (url outputPath : String) (limit : Int)
    (resp : Response) (room : Option Nat)
    (hg : w.httpGet url = Except.ok resp) (hs : resp.StatusCode = StatusOK)
    (hc : w.osCreate outputPath = Except.ok room)
    (hfail : firstErr resp.Body ≠ GoError.eof)
    (hwrite : roomFor room (delivered resp.Body).length) :
    (downloadFile w url outputPath limit).err =
      some (DownloadError.copyFailed (firstErr resp.Body)) ∧
    (downloadFile w url outputPath limit).file.map File.data = some (delivered resp.Body) ∧
    (downloadFile w url outputPath limit).unread = afterFirstErr resp.Body ∧
    (downloadFile w url outputPath limit).reads = readsUntilErr resp.Body := by
  obtain ⟨o1, o2, o3, o4⟩ := stream_outcome w url outputPath limit resp room hg hs hc hwrite
  refine ⟨?_, o2, o3, o4⟩
  rw [o1, if_neg hfail]

/-- Witness of `read_error_aborts`: limit 4, the second read brings one byte and a broken
connection, a third read would have brought more. -/
theorem read_error_aborts_witness :
    (downloadFile (servingWorld brokenBody) "http://h/a.bin" "a.bin" 4).err =
      some (DownloadError.copyFailed connReset) ∧
    (downloadFile (servingWorld brokenBody) "http://h/a.bin" "a.bin" 4).file.map File.data
      = some [1, 2, 3, 4] ∧
    (downloadFile (servingWorld brokenBody) "http://h/a.bin" "a.bin" 4).unread
      = [⟨[9], none, 0⟩] ∧
    (downloadFile (servingWorld brokenBody) "http://h/a.bin" "a.bin" 4).reads = 2 :=
  read_error_aborts (servingWorld brokenBody) "http://h/a.bin" "a.bin" 4
    { StatusCode := 200, Status := "200 OK", Body := brokenBody } none rfl rfl rfl
    (by decide) (by intro k hk; cases hk)

/-- Claim C6. If the request has succeeded with status 200 and `os.Create` fails,
`downloadFile` returns the "failed to create file" error that wraps the cause, and does
so before the body is touched: no `Read` is issued, the whole body is unread, no limiter
is made and there is no file to write to. -/
theorem create_failure_precedes_reads (w : World) (url outputPath : String) (limit : Int)
    (resp : Response) (cause : GoError)
    (hg : w.httpGet url = Except.ok resp) (hs : resp.StatusCode = StatusOK)
    (hc : w.osCreate outputPath = Except.error cause) :
    (downloadFile w url outputPath limit).err = some (DownloadError.createFailed cause) ∧
    (downloadFile w url outputPath limit).reads = 0 ∧
    (downloadFile w url outputPath limit).unread = resp.Body ∧
    (downloadFile w url outputPath limit).limiter = none ∧
    (downloadFile w url outputPath limit).file = none ∧
    (downloadFile w url outputPath limit).elapsed = 0 := by
  unfold downloadFile
  simp [hg, hs, hc]

/-- Witness of `create_failure_precedes_reads`: a directory without write permission. -/
theorem create_failure_precedes_reads_witness :
    (downloadFile (noFileWorld twoReads) "http://h/a.bin" "/a.bin" 307200).err =
      some (DownloadError.createFailed (GoError.other "permission denied")) ∧
    (downloadFile (noFileWorld twoReads) "http://h/a.bin" "/a.bin" 307200).reads = 0 ∧
    (downloadFile (noFileWorld twoReads) "http://h/a.bin" "/a.bin" 307200).unread = twoReads ∧
    (downloadFile (noFileWorld twoReads) "http://h/a.bin" "/a.bin" 307200).limiter = none ∧
    (downloadFile (noFileWorld twoReads) "http://h/a.bin" "/a.bin" 307200).file = none ∧
    (downloadFile (noFileWorld twoReads) "http://h/a.bin" "/a.bin" 307200).elapsed = 0 :=
  create_failure_precedes_reads (noFileWorld twoReads) "http://h/a.bin" "/a.bin" 307200
    { StatusCode := 200, Status := "200 OK", Body := twoReads }
    (GoError.other "permission denied") rfl rfl rfl

/-- Claim C7. For every response whose status code is not 200 (so for every status that
is not a success status), `downloadFile` returns the "HTTP request failed" error with
the status text, before streaming: no file is created or truncated, no `Read` is issued
on the body, the whole body is unread and no limiter is made. -/
theorem bad_status_precedes_streaming (w : World) (url outputPath : String) (limit : Int)
    (resp : Response)
    (hg : w.httpGet url = Except.ok resp) (hs : resp.StatusCode ≠ StatusOK) :
    (downloadFile w url outputPath limit).err = some (DownloadError.httpStatus resp.Status) ∧
    (downloadFile w url outputPath limit).file = none ∧
    (downloadFile w url outputPath limit).reads = 0 ∧
    (downloadFile w url outputPath limit).unread = resp.Body ∧
    (downloadFile w url outputPath limit).limiter = none := by
  unfold downloadFile
  simp [hg, hs]

/-- Witness of `bad_status_precedes_streaming`: status 404. -/
theorem bad_status_precedes_streaming_witness :
    (downloadFile (notFoundWorld twoReads) "http://h/a.bin" "a.bin" 0).err =
      some (DownloadError.httpStatus "404 Not Found") ∧
    (downloadFile (notFoundWorld twoReads) "http://h/a.bin" "a.bin" 0).file = none ∧
    (downloadFile (notFoundWorld twoReads) "http://h/a.bin" "a.bin" 0).reads = 0 ∧
    (downloadFile (notFoundWorld twoReads) "http://h/a.bin" "a.bin" 0).unread = twoReads ∧
    (downloadFile (notFoundWorld twoReads) "http://h/a.bin" "a.bin" 0).limiter = none :=
  bad_status_precedes_streaming (notFoundWorld twoReads) "http://h/a.bin" "a.bin" 0
    { StatusCode := 404, Status := "404 Not Found", Body := twoReads } rfl (by decide)
/-- Claim C8, as stated, fails. Limit 2, three bytes in reads of two and one byte, and
then end-of-stream in a read of its own: the copy succeeds and takes 1 tick, half a second,
where the claim asks for `⌈(3 - 2) / 2⌉ = 1` second, 2 ticks. Limit 2, four bytes of
which the last two come together with end-of-stream: the copy takes no time at all.
Limit 307200, the value of the label "300k", and 307201 bytes in reads that fit the buffer
of `io.Copy`: the copy succeeds and takes 1 tick, `1 / 307200` second, where the claim
asks for 1 second, 307200 ticks. -/
theorem paced_duration_ceiling_fails :
    ((downloadFile (servingWorld twoReads) "http://h/a.bin" "a.bin" 2).err = none ∧
     (downloadFile (servingWorld twoReads) "http://h/a.bin" "a.bin" 2).file.map File.data
       = some [1, 2, 3] ∧
     (downloadFile (servingWorld twoReads) "http://h/a.bin" "a.bin" 2).elapsed = 1 ∧
     ceilingBound 3 2 = 2 ∧
     ¬ ceilingBound 3 2 ≤ (downloadFile (servingWorld twoReads) "http://h/a.bin" "a.bin" 2).elapsed) ∧
    ((downloadFile (servingWorld [⟨[1, 2], none, 0⟩, ⟨[3, 4], some GoError.eof, 0⟩])
        "http://h/a.bin" "a.bin" 2).err = none ∧
     (downloadFile (servingWorld [⟨[1, 2], none, 0⟩, ⟨[3, 4], some GoError.eof, 0⟩])
        "http://h/a.bin" "a.bin" 2).file.map File.data = some [1, 2, 3, 4] ∧
     (downloadFile (servingWorld [⟨[1, 2], none, 0⟩, ⟨[3, 4], some GoError.eof, 0⟩])
        "http://h/a.bin" "a.bin" 2).elapsed = 0 ∧
     ceilingBound 4 2 = 2) ∧
    ((parseRateLimit "300k").1 = 307200 ∧
     (downloadFile (servingWorld bigBody) "http://h/a.bin" "a.bin" 307200).err = none ∧
     (delivered bigBody).length = 307201 ∧
     (downloadFile (servingWorld bigBody) "http://h/a.bin" "a.bin" 307200).elapsed = 1 ∧
     ceilingBound 307201 307200 = 307200) := by
  refine ⟨by decide, by decide, by decide, ?_, bigBody_size, ?_, by decide⟩
  · rw [(stream_outcome (servingWorld bigBody) "http://h/a.bin" "a.bin" 307200
      { StatusCode := 200, Status := "200 OK", Body := bigBody } none rfl rfl rfl
      (by intro k hk; cases hk)).1]
    exact if_pos bigBody_firstErr
  · rw [stream_exact_time (servingWorld bigBody) "http://h/a.bin" "a.bin" 307200
      { StatusCode := 200, Status := "200 OK", Body := bigBody } none rfl rfl rfl
      (by decide) (by intro k hk; cases hk) bigBody_reads]
    show max 0 ((bytesBeforeErr bigBody : Int) - 307200) = 1
    rw [bigBody_paced]
    decide

/-- Claim C8, amended. For every limit `R > 0`, once the request has succeeded and the
file is created, if no write fails and no read returns more than `R` bytes, the copy
takes at least `S - E - R` ticks of `1 / R` second, that is `(S - E - R) / R` seconds,
not rounded up, where `S` is the size of the body and `E` the number of bytes that come
in the same read as the end-of-stream or error; `E = 0` when end-of-stream comes in a
read of its own. -/
theorem paced_duration_lower_bound (w : World) (url outputPath : String) (limit : Int)
    (resp : Response) (room : Option Nat)
    (hg : w.httpGet url = Except.ok resp) (hs : resp.StatusCode = StatusOK)
    (hc : w.osCreate outputPath = Except.ok room)
    (hlimit : 0 < limit)
    (hwrite : roomFor room (delivered resp.Body).length)
    (hsize : ∀ x ∈ resp.Body, (x.data.length : Int) ≤ limit) :
    ((delivered resp.Body).length : Int) - (bytesWithErr resp.Body : Int) - limit
      ≤ (downloadFile w url outputPath limit).elapsed := by
  obtain ⟨-, -, p3⟩ := stream_pacing w url outputPath limit resp room hg hs hc hlimit hwrite hsize
  have hlen := delivered_length resp.Body
  omega

/-- Witness of `paced_duration_lower_bound`: limit 2 and three bytes in reads of two and
one byte. -/
theorem paced_duration_lower_bound_witness :
    ((delivered twoReads).length : Int) - (bytesWithErr twoReads : Int) - 2
      ≤ (downloadFile (servingWorld twoReads) "http://h/a.bin" "a.bin" 2).elapsed :=
  paced_duration_lower_bound (servingWorld twoReads) "http://h/a.bin" "a.bin" 2
    { StatusCode := 200, Status := "200 OK", Body := twoReads } none rfl rfl rfl
    (by decide) (by intro k hk; cases hk) (by decide)

/-- Claim C9, as stated, fails. A read that brings three bytes together with end-of-stream
is passed on by `rateLimitedReader.Read` without a token being asked for,
and the whole copy of such a body puts three bytes in the file with no token granted. -/
theorem read_with_error_skips_limiter :
    ((rateLimitedReader.mk (NewLimiter 4 4 0)).Read ⟨[1, 2, 3], some GoError.eof, 0⟩ 0).1.data
      = [1, 2, 3] ∧
    ((rateLimitedReader.mk (NewLimiter 4 4 0)).Read ⟨[1, 2, 3], some GoError.eof, 0⟩ 0).2.1.limiter.granted
      = 0 ∧
    (downloadFile (servingWorld eofWithData) "http://h/a.bin" "a.bin" 4).err = none ∧
    (downloadFile (servingWorld eofWithData) "http://h/a.bin" "a.bin" 4).file.map File.data
      = some [1, 2, 3] ∧
    (downloadFile (servingWorld eofWithData) "http://h/a.bin" "a.bin" 4).limiter.map Limiter.granted
      = some 0 := by
  decide

/-- Claim C9, amended. One call of `rateLimitedReader.Read` in which the body delivers
`n` bytes, `n` within the capacity of the limiter, returns these bytes and the body's
error value unchanged; when that error is nil it returns only after the limiter has
granted exactly `n` tokens (the call returns no earlier than it started, at a reading at
which the bucket is not overdrawn), and when it is not nil, end-of-stream included, no
token is asked for: the call returns at once and leaves the limiter as it was. Over a whole throttled copy in which no write fails and no read
returns more bytes than the limit, the tokens granted are the bytes returned by reads
with a nil error, no wait is refused, and the file holds these bytes plus those that came
in the same read as the end-of-stream or error. -/
theorem throttled_read_grants (r : rateLimitedReader) (inner : ReadResult) (now : Int)
    (w : World) (url outputPath : String) (limit : Int)
    (resp : Response) (room : Option Nat)
    (hn : (inner.data.length : Int) ≤ r.limiter.burst)
    (hg : w.httpGet url = Except.ok resp) (hs : resp.StatusCode = StatusOK)
    (hc : w.osCreate outputPath = Except.ok room)
    (hlimit : 0 < limit)
    (hwrite : roomFor room (delivered resp.Body).length)
    (hsize : ∀ x ∈ resp.Body, (x.data.length : Int) ≤ limit) :
    ((r.Read inner now).1.data = inner.data ∧
     (r.Read inner now).1.err = inner.err ∧
     (r.Read inner now).2.1.limiter.granted =
       r.limiter.granted + (if inner.err = none then (inner.data.length : Int) else 0) ∧
     (r.Read inner now).2.1.limiter.refused = r.limiter.refused ∧
     now ≤ (r.Read inner now).2.2 ∧
     (inner.err = none →
       0 ≤ (r.Read inner now).2.1.limiter.tokens
         + ((r.Read inner now).2.2 - (r.Read inner now).2.1.limiter.last)) ∧
     (inner.err ≠ none → (r.Read inner now).2.2 = now ∧ (r.Read inner now).2.1 = r)) ∧
    ((downloadFile w url outputPath limit).limiter.map Limiter.granted =
       some (bytesBeforeErr resp.Body : Int) ∧
     (downloadFile w url outputPath limit).limiter.map Limiter.refused = some 0 ∧
     (downloadFile w url outputPath limit).file.map (fun f => f.data.length) =
       some (bytesBeforeErr resp.Body + bytesWithErr resp.Body)) := by
  constructor
  · cases he : inner.err with
    | some e =>
      rw [Read_of_err r inner now e he]
      simp
    | none =>
      obtain ⟨-, g2, g3, g4, g5⟩ := waitN_grants r.limiter now inner.data.length hn
      rw [Read_of_nil r inner now he]
      exact ⟨rfl, rfl, by simpa using g2, g3, g4, fun _ => g5, fun h => absurd rfl h⟩
  · obtain ⟨p1, p2, -⟩ :=
      stream_pacing w url outputPath limit resp room hg hs hc hlimit hwrite hsize
    obtain ⟨-, o2, -⟩ := stream_outcome w url outputPath limit resp room hg hs hc hwrite
    refine ⟨p1, p2, ?_⟩
    cases hf : (downloadFile w url outputPath limit).file with
    | none => rw [hf] at o2; cases o2
    | some f =>
      rw [hf] at o2
      have hd : f.data = delivered resp.Body := by simpa using o2
      simp [hd, delivered_length]

/-- Witness of `throttled_read_grants`: one read of three bytes against a full bucket of
four, and the copy with limit 2 of three bytes of which the last comes together with
the end of the stream. -/
theorem throttled_read_grants_witness :
    (((rateLimitedReader.mk (NewLimiter 4 4 0)).Read ⟨[1, 2, 3], none, 0⟩ 0).1.data = [1, 2, 3] ∧
     ((rateLimitedReader.mk (NewLimiter 4 4 0)).Read ⟨[1, 2, 3], none, 0⟩ 0).2.1.limiter.granted
       = 3) ∧
    ((downloadFile (servingWorld eofWithLast) "http://h/a.bin" "a.bin" 2).limiter.map Limiter.granted
       = some 2 ∧
     (downloadFile (servingWorld eofWithLast) "http://h/a.bin" "a.bin" 2).file.map
       (fun f => f.data.length) = some 3) :=
  have h := throttled_read_grants (rateLimitedReader.mk (NewLimiter 4 4 0)) ⟨[1, 2, 3], none, 0⟩ 0
    (servingWorld eofWithLast) "http://h/a.bin" "a.bin" 2
    { StatusCode := 200, Status := "200 OK", Body := eofWithLast } none
    (by decide) rfl rfl rfl (by decide) (by intro k hk; cases hk) (by decide)
  ⟨⟨h.1.1, h.1.2.2.1⟩, ⟨h.2.1, h.2.2.2⟩⟩

/-- Claim C10, as stated, fails for `rateLimitedReader.Read` taken by itself. Against a
limiter of capacity 1, a read of two bytes: `WaitN` refuses the request for two tokens
with an error, yet `Read` returns the two bytes with a nil error; and `downloadFile` with
limit 1 returns nil, writes both bytes and prints its success line, with one refused wait
and no token granted. No limit that `parseRateLimit` returns is that small. -/
theorem refused_wait_is_dropped :
    ((NewLimiter 1 1 0).WaitN 0 2).1
      = some (GoError.other "rate: Wait(n=2) exceeds limiter's burst 1") ∧
    ((rateLimitedReader.mk (NewLimiter 1 1 0)).Read ⟨[7, 8], none, 0⟩ 0).1
      = ⟨[7, 8], none, 0⟩ ∧
    (downloadFile (servingWorld oneRead) "http://h/a.bin" "a.bin" 1).err = none ∧
    (downloadFile (servingWorld oneRead) "http://h/a.bin" "a.bin" 1).file.map File.data
      = some [7, 8] ∧
    (downloadFile (servingWorld oneRead) "http://h/a.bin" "a.bin" 1).limiter.map Limiter.refused
      = some 1 ∧
    (downloadFile (servingWorld oneRead) "http://h/a.bin" "a.bin" 1).limiter.map Limiter.granted
      = some 0 ∧
    (downloadFile (servingWorld oneRead) "http://h/a.bin" "a.bin" 1).stdout
      = ["Downloaded: a.bin"] := by
  decide

/-- Claim C10, amended. `rateLimitedReader.Read` returns the bytes and the error value of
the underlying read unchanged, so it returns an error exactly when that read does: the
result of the wait is not among what it returns. In the program the wait is not refused:
for a limit that `parseRateLimit` returns and a body read through the buffer of `io.Copy`,
when no write fails, no call of `WaitN` returns an error, and `downloadFile` returns the
"download failed" error exactly when a read returns an error other than end-of-stream. -/
theorem wait_is_never_refused (r : rateLimitedReader) (inner : ReadResult) (now : Int)
    (w : World) (url outputPath label : String) (limit : Int)
    (resp : Response) (room : Option Nat)
    (hlabel : parseRateLimit label = (limit, none))
    (hg : w.httpGet url = Except.ok resp) (hs : resp.StatusCode = StatusOK)
    (hc : w.osCreate outputPath = Except.ok room)
    (hwrite : roomFor room (delivered resp.Body).length)
    (hbuf : ∀ x ∈ resp.Body, x.data.length ≤ copyBufferSize) :
    ((r.Read inner now).1.data = inner.data ∧ (r.Read inner now).1.err = inner.err) ∧
    ((downloadFile w url outputPath limit).limiter.map Limiter.refused).getD 0 = 0 ∧
    (downloadFile w url outputPath limit).err =
      (if firstErr resp.Body = GoError.eof then none
       else some (DownloadError.copyFailed (firstErr resp.Body))) := by
  refine ⟨?_, ?_, (stream_outcome w url outputPath limit resp room hg hs hc hwrite).1⟩
  · cases he : inner.err with
    | some e => rw [Read_of_err r inner now e he]; exact ⟨rfl, rfl⟩
    | none => rw [Read_of_nil r inner now he]; exact ⟨rfl, rfl⟩
  · rcases parseRateLimit_limit label limit hlabel with h0 | hbig
    · rw [(stream_limiter w url outputPath limit resp room hg hs hc).2 (by omega)]
      rfl
    · have hsize : ∀ x ∈ resp.Body, (x.data.length : Int) ≤ limit := by
        intro x hx
        have := hbuf x hx
        unfold copyBufferSize at this
        omega
      rw [(stream_pacing w url outputPath limit resp room hg hs hc (by omega) hwrite hsize).2.1]
      rfl

/-- Witness of `wait_is_never_refused`: the label "300k", a read of three bytes against
the bucket of 307200 tokens, and a body that breaks in its second read. -/
theorem wait_is_never_refused_witness :
    (((rateLimitedReader.mk (NewLimiter 307200 307200 0)).Read ⟨[1, 2, 3], none, 0⟩ 0).1.data
        = [1, 2, 3] ∧
     ((rateLimitedReader.mk (NewLimiter 307200 307200 0)).Read ⟨[1, 2, 3], none, 0⟩ 0).1.err
        = none) ∧
    ((downloadFile (servingWorld brokenBody) "http://h/a.bin" "a.bin" 307200).limiter.map
        Limiter.refused).getD 0 = 0 ∧
    (downloadFile (servingWorld brokenBody) "http://h/a.bin" "a.bin" 307200).err =
      (if firstErr brokenBody = GoError.eof then none
       else some (DownloadError.copyFailed (firstErr brokenBody))) :=
  wait_is_never_refused (rateLimitedReader.mk (NewLimiter 307200 307200 0)) ⟨[1, 2, 3], none, 0⟩ 0
    (servingWorld brokenBody) "http://h/a.bin" "a.bin" "300k" 307200
    { StatusCode := 200, Status := "200 OK", Body := brokenBody } none
    (by decide) rfl rfl rfl (by intro k hk; cases hk) (by decide)

end Wget
